import Mathlib

/-!
Verification of the lspc daemon core against its design specification:
the JSON-RPC frame decoder (jsonrpc/split.go), the per-worker language
server channel (request correlation, reader tasks, handshake), the
path-to-URI escaping helper, process spawning, and the daemon main
loop (main.go).

Bytes are modelled as `Nat`, byte strings as `List Nat`, Go strings
used as method names as `String`, and runes as `Char`.  Response
continuations (`responseHandler` values) and raw JSON parameter
payloads are opaque type parameters `κ` and `P`; invoking a
continuation is observed as the pair (continuation, payload) emitted
into an invocation list.  The termination-notification channel
`languageServerClosed` is observed as a per-handle publication
counter.
-/

namespace Lspc

/-! ## Frame decoder (jsonrpc/split.go) -/

/-- ASCII bytes of the literal `Content-Length: ` that `SplitFunc` expects. -/
def headerLit : List Nat :=
  [67, 111, 110, 116, 101, 110, 116, 45, 76, 101, 110, 103, 116, 104, 58, 32]

/-- ASCII bytes of the 4-byte separator CR LF CR LF. -/
def sepLit : List Nat := [13, 10, 13, 10]

/-- Outcome of the `readString` closure of `SplitFunc`: it either matched the
whole expected literal and left the cursor at `i`, ran off the end of the
data (`incomplete`), or met a non-matching byte `b` (`mismatch`). -/
inductive ReadOut where
  | ok (i : Nat)
  | mismatch (b : Nat)
  | incomplete
deriving DecidableEq, Repr

/-- The `readString` closure of `SplitFunc`: starting at index `i` in `data`,
compare byte-for-byte against `content`; on each step it first checks for end
of data, then for a byte mismatch. -/
def readStr (data : List Nat) : Nat → List Nat → ReadOut
  | i, [] => .ok i
  | i, c :: cs =>
    if h : i < data.length then
      if data[i] = c then readStr data (i + 1) cs
      else .mismatch data[i]
    else .incomplete

/-- `unicode.IsDigit` restricted to single bytes: the ASCII digits `0`..`9`
(no byte in 128..255 maps to a Unicode decimal-digit rune). -/
def isDigitByte (b : Nat) : Bool := 48 ≤ b && b ≤ 57

/-- The digit-scanning loop of `SplitFunc`, with an explicit structural fuel
(`data.length - i + 1` steps always suffice): advance while the current byte
is an ASCII digit; stop with `some i` at the first non-digit; return `none`
when the data ends first (the Go loop returns early in that case). -/
def readDigitsGo (data : List Nat) : Nat → Nat → Option Nat
  | 0, _ => none
  | fuel + 1, i =>
    if h : i < data.length then
      if isDigitByte data[i] then readDigitsGo data fuel (i + 1) else some i
    else none

/-- The digit-scanning loop of `SplitFunc` starting at index `i`. -/
def readDigits (data : List Nat) (i : Nat) : Option Nat :=
  readDigitsGo data (data.length - i + 1) i

/-- `strconv.Atoi` on a run of ASCII digit bytes (big-endian decimal). -/
def natOfDigits (ds : List Nat) : Nat :=
  ds.foldl (fun a d => a * 10 + (d - 48)) 0

/-- The error taxonomy of `SplitFunc`: `unexpectedToken b` is the
`fmt.Errorf("Unexpected token '%c'", data[i])` parse error, `expectedMore`
is the `errors.New("Expected more content")` truncation error added by
`maybeAddEOFError`, and `badLength` is the `strconv.Atoi` failure on an
empty digit run. -/
inductive FrameErr where
  | unexpectedToken (b : Nat)
  | expectedMore
  | badLength
deriving DecidableEq, Repr

/-- Result of one `SplitFunc` invocation: a token with its advance count,
a request for more input (`advance = 0, token = nil, err = nil`), or an
error. -/
inductive SplitResult where
  | token (advance : Nat) (payload : List Nat)
  | needMore
  | fail (e : FrameErr)
deriving DecidableEq, Repr

/-- `maybeAddEOFError` followed by returning with no token: an error at EOF,
otherwise a request for more input. -/
def eofOr (atEOF : Bool) : SplitResult :=
  if atEOF then .fail .expectedMore else .needMore

/-- `jsonrpc.SplitFunc data atEOF`, translated control-path by control-path:
1. `readString "Content-Length: "`: a mismatch is an immediate error; running
   out of data falls through into the digit loop, which immediately returns
   `eofOr` again, so the observable result of the incomplete case is `eofOr`.
2. the digit loop: running out of data returns `eofOr`; otherwise it stops at
   the first non-digit and `strconv.Atoi` fails iff no digit was consumed.
3. `readString "\r\n\r\n"`: a mismatch is an immediate error; running out of
   data sets no error when `atEOF` is false and FALLS THROUGH to the length
   check with the cursor `i = data.length`, so when `contentLength = 0` the Go
   code returns an empty token with `advance = data.length` there.
4. the body-length check `i + contentLength > len(data)` yields `eofOr`,
   otherwise the token `data[i : i+contentLength]` with that advance. -/
def splitFunc (data : List Nat) (atEOF : Bool) : SplitResult :=
  match readStr data 0 headerLit with
  | .mismatch b => .fail (.unexpectedToken b)
  | .incomplete => eofOr atEOF
  | .ok i =>
    match readDigits data i with
    | none => eofOr atEOF
    | some j =>
      if i = j then .fail .badLength
      else
        let contentLength := natOfDigits ((data.drop i).take (j - i))
        match readStr data j sepLit with
        | .mismatch b => .fail (.unexpectedToken b)
        | .incomplete =>
          if atEOF then .fail .expectedMore
          else if data.length + contentLength > data.length then .needMore
          else .token (data.length + contentLength)
                 ((data.drop data.length).take contentLength)
        | .ok k =>
          if k + contentLength > data.length then eofOr atEOF
          else .token (k + contentLength) ((data.drop k).take contentLength)

/-- The `bufio.Scanner` driver loop around `splitFunc`, as used by
`stdoutReader`: `buf` is the buffered not-yet-consumed data and `chunks` the
reads the stream will still deliver.  The scanner reports `atEOF` exactly
when no further read can deliver data; a token consumes `advance` bytes of
the buffer, `needMore` appends the next read, and an error (or `needMore` at
EOF, which `splitFunc` never produces) stops the scan.  `fuel` bounds the
number of iterations; any fuel at least `emitted tokens + chunks + 1`
reproduces the full scan. -/
def drive : Nat → List Nat → List (List Nat) → List (List Nat)
  | 0, _, _ => []
  | fuel + 1, buf, chunks =>
    match splitFunc buf chunks.isEmpty with
    | .token adv tok => tok :: drive fuel (buf.drop adv) chunks
    | .needMore =>
      match chunks with
      | [] => []
      | c :: cs => drive fuel (buf ++ c) cs
    | .fail _ => []

/-- Little-endian decimal digits of `n` (empty for 0), with structural fuel
(`n` steps always suffice). -/
def toDecimalAux : Nat → Nat → List Nat
  | 0, _ => []
  | fuel + 1, n => if n = 0 then [] else n % 10 :: toDecimalAux fuel (n / 10)

/-- The ASCII bytes `fmt.Fprintf "%d"` produces for `n`. -/
def digitsOf (n : Nat) : List Nat :=
  if n = 0 then [48] else ((toDecimalAux n n).map (· + 48)).reverse

/-- The frame `marshalToWriter` emits for a payload `p`:
`Content-Length: <decimal length>\r\n\r\n` followed by the payload bytes. -/
def frameEnc (p : List Nat) : List Nat :=
  headerLit ++ digitsOf p.length ++ sepLit ++ p

/-! ## Language-server channel (languageServer in the main package) -/

/-- Stream/IO errors as the channel observes them;  `eof` is `io.EOF`. -/
inductive IOErr where
  | eof
  | other (n : Nat)
deriving DecidableEq, Repr

/-- A framed message handed to the worker's stdin (`JSONRPCHeader`):
protocol tag `"2.0"`, method, id (only marshalled when `0 ≤ id`), params. -/
structure Msg (P : Type) where
  jsonrpc : String
  method : String
  id : Int
  params : P
deriving DecidableEq, Repr

/-- The `languageServer` handle: working directory, the monotonically
increasing `nextRequestID` counter, the pending table `onResponse`
(id ↦ continuation; the Go map is modelled as an association list whose
first match is the live binding), the terminal error `err`, the log of
messages successfully written to stdin, and the number of times this handle
has been published on the `languageServerClosed` channel. -/
structure LS (κ P : Type) where
  directory : List Char
  nextRequestID : Int
  onResponse : List (Int × κ)
  err : Option IOErr
  written : List (Msg P)
  closedPubs : Nat
deriving DecidableEq, Repr

/-- Go map lookup on the association-list model of `onResponse`. -/
def lookupResp {κ : Type} : List (Int × κ) → Int → Option κ
  | [], _ => none
  | (k, v) :: rest, id => if k = id then some v else lookupResp rest id

/-- The response-dispatch step of `stdoutReader` for one decoded payload with
parsed header id `id` and params: when `0 ≤ id` and a continuation is
registered, invoke it with the params (the returned list holds the
invocations performed); an unregistered id is logged and dropped; a negative
id (notification) is skipped.  The pending table is NOT modified. -/
def dispatchResponse {κ P : Type} (ls : LS κ P) (id : Int) (params : P) :
    LS κ P × List (κ × P) :=
  if 0 ≤ id then
    match lookupResp ls.onResponse id with
    | some h => (ls, [(h, params)])
    | none => (ls, [])
  else (ls, [])

/-- The scan loop of `stdoutReader` over the already-decoded-and-unmarshalled
headers of the output stream, accumulating continuation invocations. -/
def scanLoop {κ P : Type} (ls : LS κ P) : List (Int × P) → LS κ P × List (κ × P)
  | [] => (ls, [])
  | (id, p) :: rest =>
    let r := dispatchResponse ls id p
    let rr := scanLoop r.1 rest
    (rr.1, r.2 ++ rr.2)

/-- `stdoutReader`: run the scan loop, then, if the scanner finished with a
non-nil error, record it in `err` (unconditionally overwriting), and publish
the handle on `languageServerClosed` exactly once. -/
def stdoutReader {κ P : Type} (ls : LS κ P) (headers : List (Int × P))
    (scanErr : Option IOErr) : LS κ P × List (κ × P) :=
  let s := scanLoop ls headers
  let ls1 :=
    match scanErr with
    | some e => { s.1 with err := some e }
    | none => s.1
  ({ ls1 with closedPubs := ls1.closedPubs + 1 }, s.2)

/-- The read loop of `stderrReader`: each successful `Read` echoes its chunk;
the first failing `Read` (end-of-stream is the error `io.EOF` in Go) sets
`err` (unconditionally overwriting), publishes the handle once, and breaks. -/
def stderrLoop {κ P : Type} (ls : LS κ P) :
    List (List Nat) → IOErr → LS κ P × List (List Nat)
  | [], e => ({ ls with err := some e, closedPubs := ls.closedPubs + 1 }, [])
  | c :: cs, e =>
    let r := stderrLoop ls cs e
    (r.1, c :: r.2)

/-- `stderrReader`: run the read loop until its `Read` fails, then publish the
handle on `languageServerClosed` once more after the loop (so the error path
publishes twice in total). -/
def stderrReader {κ P : Type} (ls : LS κ P) (chunks : List (List Nat))
    (readErr : IOErr) : LS κ P × List (List Nat) :=
  let r := stderrLoop ls chunks readErr
  ({ r.1 with closedPubs := r.1.closedPubs + 1 }, r.2)

/-- `rawWriteMsg`: if the handle already has a terminal error, log and return
without doing anything; otherwise marshal and write the framed message to
stdin (`pipeErr` is the outcome the pipe reports for this write); a write
failure records the terminal error and publishes the handle once. -/
def rawWriteMsg {κ P : Type} (ls : LS κ P) (method : String) (params : P)
    (id : Int) (pipeErr : Option IOErr) : LS κ P :=
  match ls.err with
  | some _ => ls
  | none =>
    match pipeErr with
    | none => { ls with written := ls.written ++ [⟨"2.0", method, id, params⟩] }
    | some e => { ls with err := some e, closedPubs := ls.closedPubs + 1 }

/-- `writeRequest`: allocate the next id, substitute the dummy continuation
when the caller passed none, record the continuation in the pending table,
then hand the framed message to `rawWriteMsg`.  Note that the id allocation
and the table insertion happen before `rawWriteMsg` checks the terminal
error. -/
def writeRequest {κ P : Type} (ls : LS κ P) (method : String) (params : P)
    (onResponse : Option κ) (dummy : κ) (pipeErr : Option IOErr) : LS κ P :=
  let id := ls.nextRequestID
  let ls1 : LS κ P := { ls with nextRequestID := ls.nextRequestID + 1 }
  let handler := onResponse.getD dummy
  let ls2 : LS κ P := { ls1 with onResponse := (id, handler) :: ls1.onResponse }
  rawWriteMsg ls2 method params id pipeErr

/-- `writeNotification`: same framing with id `-1`, nothing recorded. -/
def writeNotification {κ P : Type} (ls : LS κ P) (method : String) (params : P)
    (pipeErr : Option IOErr) : LS κ P :=
  rawWriteMsg ls method params (-1) pipeErr

/-! ## Path escaping (pathToURI) and the initialize handshake -/

/-- The escape-map lookup of `pathToURI` (the Go `map[rune]string` m),
written as the equivalent decision chain over its twelve keys. -/
def escGo (c : Char) : List Char :=
  if c = ' ' then "%20".toList
  else if c = '#' then "%23".toList
  else if c = '$' then "%24".toList
  else if c = '&' then "%26".toList
  else if c = '(' then "%28".toList
  else if c = ')' then "%29".toList
  else if c = '+' then "%2B".toList
  else if c = ',' then "%2C".toList
  else if c = ':' then "%3A".toList
  else if c = ';' then "%3B".toList
  else if c = '?' then "%3F".toList
  else if c = '@' then "%40".toList
  else [c]

/-- `strings.Replace s "\\" "/" -1` on a single-rune pattern, per rune. -/
def slashOf (c : Char) : Char := if c = '\\' then '/' else c

/-- `pathToURI`: escape each rune through the map, then replace every
backslash of the result by a forward slash, then put `file://` in front. -/
def pathToURI (absolutePath : List Char) : List Char :=
  "file://".toList ++ ((absolutePath.map escGo).flatten.map slashOf)

/-- The rootUri formula exactly as the specification words it: `file://`
followed by the path with every backslash replaced by a forward slash and
each reserved character replaced by its percent-escape. -/
def specRootURI (p : List Char) : List Char :=
  "file://".toList ++ ((p.map slashOf).map escGo).flatten

/-- `LsInitializeParams`: the `rootUri` and the caller-supplied
`initializationOptions` raw payload. -/
structure LsInitializeParams where
  rootUri : List Char
  initializationOptions : List Nat
deriving DecidableEq, Repr

/-- `writeInitialize`: immediately after spawn, send an `initialize` request
whose params carry the file URI of the working directory and the caller's
init options verbatim, with a logging continuation (`initHandler`). -/
def writeInitialize {κ : Type} (ls : LS κ LsInitializeParams)
    (initOpts : List Nat) (initHandler dummy : κ) (pipeErr : Option IOErr) :
    LS κ LsInitializeParams :=
  writeRequest ls "initialize" ⟨pathToURI ls.directory, initOpts⟩
    (some initHandler) dummy pipeErr

/-! ## Spawning (startLanguageServer) -/

/-- The spawn error taxonomy of the specification: bad command line
(`shellwords.Parse` failure), pipe setup failure (`StdinPipe`/`StdoutPipe`/
`StderrPipe`), and `cmd.Start` failure (missing executable). -/
inductive SpawnErrKind where
  | badCommandLine
  | pipeSetupFailed
  | startFailed
deriving DecidableEq, Repr

/-- Outcome of `startLanguageServer`.  `panic` is a Go runtime panic, which
is not a returned error. -/
inductive SpawnOutcome where
  | ok
  | err (k : SpawnErrKind)
  | panic
deriving DecidableEq, Repr

/-- `startLanguageServer`, with the environment's answers passed in:
`parseRes` is what `shellwords.Parse bin` returned, and the four `Option
IOErr` arguments are the outcomes of the three pipe setups and of
`cmd.Start`.  A parse failure returns the bad-command-line error; otherwise
the code evaluates `exe[0]`, which PANICS (index out of range) when the
parsed word list is empty — e.g. for an empty or whitespace-only command
line, where `shellwords.Parse` returns an empty list and a nil error. -/
def startLanguageServer (parseRes : Except String (List String))
    (_directory : List Char)
    (stdinRes stdoutRes stderrRes startRes : Option IOErr) : SpawnOutcome :=
  match parseRes with
  | .error _ => .err .badCommandLine
  | .ok exe =>
    if exe.isEmpty then .panic
    else
      match stdinRes with
      | some _ => .err .pipeSetupFailed
      | none =>
        match stdoutRes with
        | some _ => .err .pipeSetupFailed
        | none =>
          match stderrRes with
          | some _ => .err .pipeSetupFailed
          | none =>
            match startRes with
            | some _ => .err .startFailed
            | none => .ok

/-! ## Daemon main loop (daemonMainLoop) -/

/-- The daemon's state: the registry of live handles (by identity), the
shutdown flag `gShutdown`, and the idle deadline (`countdown`). -/
structure DaemonState where
  servers : List Nat
  shutdown : Bool
  deadline : Nat
deriving DecidableEq, Repr

/-- The client calls the control surface forwards (`Server` methods).  A
`start` call carries the identity of the freshly spawned handle on success,
`none` on spawn failure. -/
inductive Call where
  | keepAlive
  | kill
  | serverPid
  | listServers
  | start (spawned : Option Nat)
deriving DecidableEq, Repr

/-- Serving one client call synchronously (`rpc.ServeConn`): `KeepAlive`
resets the countdown, `Kill` sets `gShutdown`, `ServerPid` and `Ls` read
state only, `Start` appends the new handle on success. -/
def serveCall (s : DaemonState) (now timeout : Nat) : Call → DaemonState
  | .keepAlive => { s with deadline := now + timeout }
  | .kill => { s with shutdown := true }
  | .serverPid => s
  | .listServers => s
  | .start o =>
    match o with
    | some h => { s with servers := s.servers ++ [h] }
    | none => s

/-- The three event sources of the `select` in `daemonMainLoop`, each event
tagged with its arrival time. -/
inductive Event where
  | clientCall (c : Call)
  | lsClosed (h : Nat)
  | timerFired
deriving DecidableEq, Repr

/-- Result of one loop iteration: `break loop` or continue. -/
inductive StepRes where
  | exit (s : DaemonState)
  | cont (s : DaemonState)
deriving DecidableEq, Repr

/-- One iteration of the `select` loop: a client call is served completely;
then, if `gShutdown` is set, the loop breaks without touching the countdown,
otherwise the countdown is reset to `now + timeout`.  A termination
notification removes every identity-matching handle from the registry.  The
idle timer firing breaks the loop. -/
def loopStep (s : DaemonState) (now timeout : Nat) : Event → StepRes
  | .clientCall c =>
    let s1 := serveCall s now timeout c
    if s1.shutdown then .exit s1
    else .cont { s1 with deadline := now + timeout }
  | .lsClosed h => .cont { s with servers := s.servers.filter (fun x => x ≠ h) }
  | .timerFired => .exit s

/-- The loop run over a queue of timed events.  It returns the final state
and the list of events actually processed before the loop broke; events
after the break are never considered. -/
def runLoop (timeout : Nat) : DaemonState → List (Nat × Event) →
    DaemonState × List (Nat × Event)
  | s, [] => (s, [])
  | s, (t, e) :: es =>
    match loopStep s t timeout e with
    | .exit s1 => (s1, [(t, e)])
    | .cont s1 =>
      let r := runLoop timeout s1 es
      (r.1, (t, e) :: r.2)

/-! ## Concrete states used by witnesses and counterexamples -/

/-- A handle with one pending request: id 0, continuation tagged 7. -/
def sampleLS : LS Nat Nat := ⟨[], 1, [(0, 7)], none, [], 0⟩

/-- A handle already in terminal state, with counter at 3. -/
def deadLS : LS Nat Nat := ⟨[], 3, [], some (.other 5), [], 0⟩

/-- A fresh live handle. -/
def freshLS : LS Nat Nat := ⟨[], 0, [], none, [], 0⟩

/-- A fresh handle used for the handshake witness, in directory `C:\a b`. -/
def initLS : LS Nat LsInitializeParams := ⟨"C:\\a b".toList, 0, [], none, [], 0⟩

/-- The initial daemon state. -/
def daemon0 : DaemonState := ⟨[], false, 0⟩

/-! ## Helper lemmas -/

theorem getElem_append_len {α : Type} :
    ∀ (pre : List α) (c : α) (suf : List α)
      (h : pre.length < (pre ++ c :: suf).length),
      (pre ++ c :: suf)[pre.length] = c
  | [], _, _, _ => rfl
  | _ :: tl, c, suf, h => by
    have ih := getElem_append_len tl c suf (by simp)
    simpa using ih

theorem take_get_drop {α : Type} :
    ∀ (l : List α) (j : Nat) (h : j < l.length),
      l.take j ++ l.get ⟨j, h⟩ :: l.drop (j + 1) = l
  | _ :: _, 0, _ => rfl
  | a :: tl, j + 1, h => by
    simp [List.take, List.drop]

/-- One matching step of `readStr`. -/
theorem readStr_cons_eq (data : List Nat) (i c : Nat) (cs : List Nat)
    (h : i < data.length) (hc : data[i] = c) :
    readStr data i (c :: cs) = readStr data (i + 1) cs := by
  simp [readStr, h, hc]

/-- One mismatching step of `readStr`. -/
theorem readStr_cons_stop (data : List Nat) (i c : Nat) (cs : List Nat)
    (h : i < data.length) (hc : ¬ data[i] = c) :
    readStr data i (c :: cs) = .mismatch data[i] := by
  simp [readStr, h, hc]

/-- `readStr` reports the first disagreeing byte as a mismatch, regardless of
how much data follows: scanning `expected = front ++ c :: rest` over data
whose bytes after the cursor are `front ++ b :: suf` with `b ≠ c` stops at
`b`. -/
theorem readStr_mismatch (b c : Nat) (hbc : b ≠ c) :
    ∀ (front pre rest suf : List Nat),
      readStr (pre ++ front ++ b :: suf) pre.length (front ++ c :: rest)
        = .mismatch b := by
  intro front
  induction front with
  | nil =>
    intro pre rest suf
    simp only [List.nil_append, List.append_nil]
    have hlen : pre.length < (pre ++ b :: suf).length := by simp
    have hget : (pre ++ b :: suf)[pre.length] = b :=
      getElem_append_len pre b suf hlen
    rw [readStr_cons_stop _ _ _ _ hlen (by rw [hget]; exact hbc), hget]
  | cons a front ih =>
    intro pre rest suf
    simp only [List.cons_append, List.append_assoc]
    have hlen : pre.length < (pre ++ a :: (front ++ b :: suf)).length := by simp
    have hget : (pre ++ a :: (front ++ b :: suf))[pre.length] = a :=
      getElem_append_len pre a (front ++ b :: suf) hlen
    rw [readStr_cons_eq _ _ _ _ hlen hget]
    have key := ih (pre ++ [a]) rest suf
    simp only [List.append_assoc, List.cons_append, List.nil_append,
      List.length_append, List.length_cons, List.length_nil] at key
    exact key

theorem dispatchResponse_fst {κ P : Type} (ls : LS κ P) (id : Int) (p : P) :
    (dispatchResponse ls id p).1 = ls := by
  unfold dispatchResponse
  split
  · split <;> rfl
  · rfl

theorem scanLoop_fst {κ P : Type} :
    ∀ (hs : List (Int × P)) (ls : LS κ P), (scanLoop ls hs).1 = ls := by
  intro hs
  induction hs with
  | nil => intro ls; rfl
  | cons h tl ih =>
    intro ls
    obtain ⟨id, p⟩ := h
    simp [scanLoop, dispatchResponse_fst, ih]

theorem stderrLoop_fst {κ P : Type} (ls : LS κ P) :
    ∀ (chunks : List (List Nat)) (e : IOErr),
      (stderrLoop ls chunks e).1
        = { ls with err := some e, closedPubs := ls.closedPubs + 1 } := by
  intro chunks e
  induction chunks with
  | nil => rfl
  | cons c cs ih => simp [stderrLoop, ih]

theorem stderrReader_eq {κ P : Type} (ls : LS κ P) (chunks : List (List Nat))
    (e : IOErr) :
    stderrReader ls chunks e
      = ({ ls with err := some e, closedPubs := ls.closedPubs + 2 },
         (stderrLoop ls chunks e).2) := by
  show ({ (stderrLoop ls chunks e).1 with
            closedPubs := (stderrLoop ls chunks e).1.closedPubs + 1 },
        (stderrLoop ls chunks e).2) = _
  rw [stderrLoop_fst]

theorem stdoutReader_none_eq {κ P : Type} (ls : LS κ P)
    (headers : List (Int × P)) :
    stdoutReader ls headers none
      = ({ ls with closedPubs := ls.closedPubs + 1 }, (scanLoop ls headers).2) := by
  show ({ (scanLoop ls headers).1 with
            closedPubs := (scanLoop ls headers).1.closedPubs + 1 },
        (scanLoop ls headers).2) = _
  rw [scanLoop_fst]

theorem stdoutReader_some_eq {κ P : Type} (ls : LS κ P)
    (headers : List (Int × P)) (e : IOErr) :
    stdoutReader ls headers (some e)
      = ({ ls with err := some e, closedPubs := ls.closedPubs + 1 },
         (scanLoop ls headers).2) := by
  show ({ { (scanLoop ls headers).1 with err := some e } with
            closedPubs :=
              { (scanLoop ls headers).1 with err := some e }.closedPubs + 1 },
        (scanLoop ls headers).2) = _
  rw [scanLoop_fst]

theorem flatten_map_my {α β : Type} (f : α → β) :
    ∀ (L : List (List α)), L.flatten.map f = (L.map (fun l => l.map f)).flatten := by
  intro L
  induction L with
  | nil => rfl
  | cons a tl ih => simp [ih]

/-- `rawWriteMsg` on a handle whose terminal error is set is the identity. -/
theorem rawWriteMsg_dead {κ P : Type} (ls : LS κ P) (method : String)
    (params : P) (id : Int) (pipeErr : Option IOErr) (e : IOErr)
    (h : ls.err = some e) :
    rawWriteMsg ls method params id pipeErr = ls := by
  unfold rawWriteMsg
  rw [h]

/-- Escaping through the Go map and then replacing backslashes by slashes
agrees, per rune, with replacing first and escaping afterwards: the escape
strings contain no backslash and the backslash itself is not a map key. -/
theorem escGo_slash_comm (c : Char) : (escGo c).map slashOf = escGo (slashOf c) := by
  by_cases hb : c = '\\'
  · subst hb; decide
  · have hsc : slashOf c = c := by simp [slashOf, hb]
    rw [hsc]
    by_cases h1 : c = ' '
    · subst h1; decide
    by_cases h2 : c = '#'
    · subst h2; decide
    by_cases h3 : c = '$'
    · subst h3; decide
    by_cases h4 : c = '&'
    · subst h4; decide
    by_cases h5 : c = '('
    · subst h5; decide
    by_cases h6 : c = ')'
    · subst h6; decide
    by_cases h7 : c = '+'
    · subst h7; decide
    by_cases h8 : c = ','
    · subst h8; decide
    by_cases h9 : c = ':'
    · subst h9; decide
    by_cases h10 : c = ';'
    · subst h10; decide
    by_cases h11 : c = '?'
    · subst h11; decide
    by_cases h12 : c = '@'
    · subst h12; decide
    simp only [escGo, if_neg h1, if_neg h2, if_neg h3, if_neg h4, if_neg h5,
      if_neg h6, if_neg h7, if_neg h8, if_neg h9, if_neg h10, if_neg h11,
      if_neg h12]
    simp [slashOf, hb]

/-- The two readings of the escaping pipeline coincide on whole paths. -/
theorem pathToURI_eq_spec (p : List Char) : pathToURI p = specRootURI p := by
  unfold pathToURI specRootURI
  rw [flatten_map_my, List.map_map, List.map_map]
  have hfun : ((fun l => List.map slashOf l) ∘ escGo) = (escGo ∘ slashOf) :=
    funext fun x => escGo_slash_comm x
  rw [hfun]

/-! ## Claim theorems -/

/-- Claim C1, counterexample: after a response for the registered id 0 is
dispatched, the entry is still in the pending table (not removed as the
claim states), and a second response for the same id invokes the
continuation again instead of being dropped. -/
theorem dispatch_no_removal_cx :
    lookupResp (dispatchResponse sampleLS 0 99).1.onResponse 0 ≠ none ∧
    (dispatchResponse (dispatchResponse sampleLS 0 99).1 0 99).2 ≠ [] := by
  decide

/-- Claim C1 (corrected): when the stdout reader decodes a payload whose id
has a registered continuation, it invokes exactly that continuation, exactly
once per response, with the payload, but leaves the (id ↦ continuation)
entry in the pending table, so a second response for the same id invokes the
continuation again; a response for an unregistered id invokes nothing, as
does a notification (negative id). -/
theorem dispatch_invokes_and_retains {κ P : Type} (ls : LS κ P) (id : Int)
    (p q : P) (h : κ) :
    (0 ≤ id → lookupResp ls.onResponse id = some h →
      dispatchResponse ls id p = (ls, [(h, p)]) ∧
      (dispatchResponse (dispatchResponse ls id p).1 id q).2 = [(h, q)]) ∧
    (lookupResp ls.onResponse id = none → dispatchResponse ls id p = (ls, [])) ∧
    (id < 0 → dispatchResponse ls id p = (ls, [])) := by
  refine ⟨fun hid hlook => ?_, fun hnone => ?_, fun hneg => ?_⟩
  · have h1 : dispatchResponse ls id p = (ls, [(h, p)]) := by
      simp [dispatchResponse, hid, hlook]
    exact ⟨h1, by rw [h1]; simp [dispatchResponse, hid, hlook]⟩
  · unfold dispatchResponse
    split
    · rw [hnone]
    · rfl
  · have hnot : ¬ (0 : Int) ≤ id := by omega
    simp [dispatchResponse, hnot]

/-- Witness for C1 at a concrete handle with one pending request. -/
theorem dispatch_invokes_and_retains_witness :
    dispatchResponse sampleLS 0 99 = (sampleLS, [(7, 99)]) ∧
    (dispatchResponse (dispatchResponse sampleLS 0 99).1 0 100).2 = [(7, 100)] :=
  (dispatch_invokes_and_retains sampleLS 0 99 100 7).1 (by decide) (by decide)

/-- Claim C2 (code bug): framing the payload sequence `[[], [97]]` and
delivering the concatenation one byte at a time does NOT reproduce the
sequence: after seeing `Content-Length: 0` and only half the separator, the
decoder's incomplete-separator path falls through the body-length check
(`len + 0 > len` is false) and emits a premature empty token whose advance
swallows the partial separator; the leftover separator bytes then fail to
parse as a header, and the second payload is lost. -/
theorem chunked_zero_frame_drops_payload :
    ((frameEnc [] ++ frameEnc [97]).map (fun b => [b])).flatten
        = ([[], [97]].map frameEnc).flatten ∧
    drive 100 [] ((frameEnc [] ++ frameEnc [97]).map (fun b => [b])) = [[]] ∧
    ([[]] : List (List Nat)) ≠ [[], [97]] := by
  decide

/-- Claim C3, counterexample: run the stdout reader to completion with scan
error `other 1`, then the stderr reader with read error `other 2`, on the
same fresh handle.  The final terminal error is `other 2` — the second
writer overwrote the first, so "first writer wins" fails — and the handle
was published three times, not once per reader: the stderr reader publishes
both in its error branch and again after its loop. -/
theorem readers_first_wins_cx :
    (stderrReader (stdoutReader freshLS [] (some (IOErr.other 1))).1 []
        (IOErr.other 2)).1.err ≠ some (IOErr.other 1) ∧
    (stderrReader (stdoutReader freshLS [] (some (IOErr.other 1))).1 []
        (IOErr.other 2)).1.closedPubs ≠ 2 := by
  decide

/-- Claim C3 (corrected): a handle's terminal error, once set, is never
cleared (live→terminal is one-way), but the readers do not guard the write:
the stderr reader unconditionally overwrites `err` with its own error (last
writer wins), and while the stdout reader publishes the handle on the
termination channel exactly once, the stderr reader publishes it exactly
twice — once in its error branch and once after its loop. -/
theorem readers_error_overwrite_and_publish {κ P : Type} (ls : LS κ P)
    (chunks : List (List Nat)) (e : IOErr) (resp : List (Int × P))
    (se : Option IOErr) :
    (stderrReader ls chunks e).1.err = some e ∧
    (stderrReader ls chunks e).1.closedPubs = ls.closedPubs + 2 ∧
    (stdoutReader ls resp se).1.closedPubs = ls.closedPubs + 1 ∧
    (ls.err.isSome = true → (stdoutReader ls resp se).1.err.isSome = true) := by
  refine ⟨?_, ?_, ?_, ?_⟩
  · rw [stderrReader_eq]
  · rw [stderrReader_eq]
  · cases se with
    | none => rw [stdoutReader_none_eq]
    | some x => rw [stdoutReader_some_eq]
  · intro him
    cases se with
    | none =>
      rw [stdoutReader_none_eq]
      exact him
    | some x =>
      rw [stdoutReader_some_eq]
      rfl

/-- Witness for C3 at a concrete fresh handle. -/
theorem readers_error_overwrite_and_publish_witness :
    (stderrReader freshLS [[1]] IOErr.eof).1.err = some IOErr.eof ∧
    (stderrReader freshLS [[1]] IOErr.eof).1.closedPubs = 2 ∧
    (stdoutReader freshLS ([] : List (Int × Nat)) none).1.closedPubs = 1 :=
  have h := readers_error_overwrite_and_publish freshLS [[1]] IOErr.eof
    ([] : List (Int × Nat)) none
  ⟨h.1, h.2.1.trans (by decide), h.2.2.1.trans (by decide)⟩

/-- Claim C4, counterexample: on a handle already in terminal state,
`writeRequest` still advances the request-id counter and still records the
continuation, contradicting the claim that the handle's state is left
unchanged. -/
theorem writeRequest_dead_advances_cx :
    (writeRequest deadLS "m" (0 : Nat) none 9 none).nextRequestID
        ≠ deadLS.nextRequestID ∧
    (writeRequest deadLS "m" (0 : Nat) none 9 none).onResponse
        ≠ deadLS.onResponse := by
  decide

/-- Claim C4 (corrected): on a handle already in terminal state, sendRequest
never raises and writes nothing — the framed message is dropped, the
terminal error and the publication count are untouched — but the request-id
counter IS advanced and the continuation IS recorded in the pending table
(where it will simply be abandoned); only the write is skipped. -/
theorem writeRequest_dead_handle_semantics {κ P : Type} (ls : LS κ P)
    (method : String) (params : P) (onResp : Option κ) (dummy : κ)
    (pipeErr : Option IOErr) (e : IOErr) (hdead : ls.err = some e) :
    (writeRequest ls method params onResp dummy pipeErr).written = ls.written ∧
    (writeRequest ls method params onResp dummy pipeErr).err = some e ∧
    (writeRequest ls method params onResp dummy pipeErr).closedPubs
        = ls.closedPubs ∧
    (writeRequest ls method params onResp dummy pipeErr).nextRequestID
        = ls.nextRequestID + 1 ∧
    (writeRequest ls method params onResp dummy pipeErr).onResponse
        = (ls.nextRequestID, onResp.getD dummy) :: ls.onResponse := by
  have hw : writeRequest ls method params onResp dummy pipeErr
      = { ls with nextRequestID := ls.nextRequestID + 1,
                  onResponse :=
                    (ls.nextRequestID, onResp.getD dummy) :: ls.onResponse } := by
    unfold writeRequest
    exact rawWriteMsg_dead _ method params _ pipeErr e (by simpa using hdead)
  rw [hw]
  exact ⟨rfl, by simpa using hdead, rfl, rfl, rfl⟩

/-- Witness for C4 at a concrete dead handle. -/
theorem writeRequest_dead_handle_semantics_witness :
    (writeRequest deadLS "m" (0 : Nat) none 9 none).written = [] ∧
    (writeRequest deadLS "m" (0 : Nat) none 9 none).nextRequestID = 4 ∧
    (writeRequest deadLS "m" (0 : Nat) none 9 none).onResponse = [(3, 9)] :=
  have h := writeRequest_dead_handle_semantics deadLS "m" (0 : Nat) none 9 none
    (.other 5) (by decide)
  ⟨h.1.trans (by decide), h.2.2.2.1.trans (by decide), h.2.2.2.2.trans (by decide)⟩

/-- Claim C5 (code bug): for an empty (or whitespace-only) command line,
`shellwords.Parse` returns an empty word list with a nil error, and
`startLanguageServer` then evaluates `exe[0]`, panicking with an
index-out-of-range instead of returning a BadCommandLine spawn error; a
genuine parse failure does return the error synchronously. -/
theorem start_empty_command_panics :
    startLanguageServer (Except.ok []) [] none none none none
        = SpawnOutcome.panic ∧
    startLanguageServer (Except.error "cannot parse") [] none none none none
        = SpawnOutcome.err SpawnErrKind.badCommandLine := by
  decide

/-- Claim C6 (confirmed): in the daemon event loop, a client call is served
synchronously and completely before any other event is considered; if the
served call was a shutdown request the loop exits at once without touching
the countdown (later events are never processed), and otherwise the idle
deadline is reset to `now + timeout` and the loop continues with the
remaining events from the post-call state. -/
theorem loop_call_shutdown_or_reset (s : DaemonState) (t timeout : Nat)
    (c : Call) (es : List (Nat × Event)) (hrun : s.shutdown = false) :
    (c = .kill →
      runLoop timeout s ((t, .clientCall c) :: es)
        = ({ s with shutdown := true }, [(t, .clientCall .kill)])) ∧
    (c ≠ .kill →
      (serveCall s t timeout c).shutdown = false ∧
      runLoop timeout s ((t, .clientCall c) :: es)
        = ((runLoop timeout
              { serveCall s t timeout c with deadline := t + timeout } es).1,
           (t, .clientCall c)
             :: (runLoop timeout
                  { serveCall s t timeout c with deadline := t + timeout } es).2)) := by
  constructor
  · rintro rfl
    simp [runLoop, loopStep, serveCall]
  · intro hne
    have hsd : (serveCall s t timeout c).shutdown = false := by
      cases c with
      | keepAlive => simpa [serveCall] using hrun
      | kill => exact absurd rfl hne
      | serverPid => simpa [serveCall] using hrun
      | listServers => simpa [serveCall] using hrun
      | start o => cases o <;> simpa [serveCall] using hrun
    refine ⟨hsd, ?_⟩
    simp [runLoop, loopStep, hsd]

/-- Witness for C6: a kill call exits the loop at once; a keep-alive call is
served and resets the deadline to `now + timeout = 5 + 7`. -/
theorem loop_call_shutdown_or_reset_witness :
    runLoop 7 daemon0 [(9, Event.clientCall Call.kill)]
        = ({ daemon0 with shutdown := true }, [(9, Event.clientCall Call.kill)]) ∧
    runLoop 7 daemon0 [(5, Event.clientCall Call.keepAlive)]
        = ({ daemon0 with deadline := 12 }, [(5, Event.clientCall Call.keepAlive)]) :=
  ⟨(loop_call_shutdown_or_reset daemon0 9 7 Call.kill [] rfl).1 rfl,
   ((loop_call_shutdown_or_reset daemon0 5 7 Call.keepAlive [] rfl).2
      (by decide)).2.trans (by decide)⟩

/-- Claim C7 (confirmed): whenever the input disagrees with the literal
`Content-Length: ` at any byte position (the bytes before `j` match, and the
byte at `j` differs), `SplitFunc` returns the parse error carrying that byte
on that very invocation, whether or not the stream is at end-of-stream. -/
theorem header_mismatch_immediate_error (j : Nat) (hj : j < headerLit.length)
    (b : Nat) (suf : List Nat) (atEOF : Bool)
    (hne : b ≠ headerLit.get ⟨j, hj⟩) :
    splitFunc (headerLit.take j ++ b :: suf) atEOF
      = .fail (.unexpectedToken b) := by
  have hexp : headerLit.take j ++ headerLit.get ⟨j, hj⟩ :: headerLit.drop (j + 1)
      = headerLit := take_get_drop headerLit j hj
  have h0 : readStr (headerLit.take j ++ b :: suf) 0 headerLit = .mismatch b := by
    have key := readStr_mismatch b (headerLit.get ⟨j, hj⟩) hne
      (headerLit.take j) [] (headerLit.drop (j + 1)) suf
    rw [hexp] at key
    simpa using key
  simp [splitFunc, h0]

/-- Witness for C7 on the input `foobar` of the repository's own test. -/
theorem header_mismatch_immediate_error_witness :
    splitFunc (headerLit.take 0 ++ 102 :: [111, 111, 98, 97, 114]) false
      = .fail (.unexpectedToken 102) :=
  header_mismatch_immediate_error 0 (by decide) 102 [111, 111, 98, 97, 114]
    false (by decide)

/-- Claim C8 (code bug): `Content-Length: 0` followed by only the first half
of the separator is an incomplete stem of the well-formed empty frame, yet
with more input still possible the decoder emits a token (an empty payload,
advancing past the partial separator) instead of yielding nothing; only the
at-end-of-stream half of the claim (truncation error) holds there. -/
theorem incomplete_separator_zero_length_token :
    (headerLit ++ [48, 13, 10]) ++ [13, 10] = frameEnc [] ∧
    splitFunc (headerLit ++ [48, 13, 10]) false = .token 19 [] ∧
    splitFunc (headerLit ++ [48, 13, 10]) true = .fail .expectedMore := by
  decide

/-- Claim C9 (confirmed): the handshake's rootUri equals `file://` followed
by the working directory with every backslash replaced by a forward slash
and each reserved character replaced by its percent-escape, all other
characters unchanged; and the initialize request records the caller-supplied
initialization options verbatim in its params. -/
theorem handshake_rooturi_and_options {κ : Type} (ls : LS κ LsInitializeParams)
    (opts : List Nat) (initHandler dummy : κ) (p : List Char)
    (hlive : ls.err = none) :
    pathToURI p = specRootURI p ∧
    (writeInitialize ls opts initHandler dummy none).written
      = ls.written ++ [⟨"2.0", "initialize", ls.nextRequestID,
          ⟨specRootURI ls.directory, opts⟩⟩] := by
  refine ⟨pathToURI_eq_spec p, ?_⟩
  simp [writeInitialize, writeRequest, rawWriteMsg, hlive, pathToURI_eq_spec]

/-- Witness for C9: the handle in directory `C:\a b` sends an initialize
request whose rootUri is `file://C%3A/a%20b` and whose options are the two
bytes supplied by the caller. -/
theorem handshake_rooturi_and_options_witness :
    (writeInitialize initLS [123, 125] (9 : Nat) 8 none).written
      = [⟨"2.0", "initialize", 0, ⟨"file://C%3A/a%20b".toList, [123, 125]⟩⟩] :=
  ((handshake_rooturi_and_options initLS [123, 125] (9 : Nat) 8
      "C:\\a b".toList rfl).2).trans (by decide)

/-- Claim C10 (confirmed): whenever the stderr reader task terminates, the
handle's terminal error has been set to the (non-nil) error its final read
reported; in particular a clean end-of-stream is recorded as `io.EOF`, so a
worker that exits cleanly is still recorded as closed with an error. -/
theorem stderr_exit_records_error {κ P : Type} (ls : LS κ P)
    (chunks : List (List Nat)) (e : IOErr) :
    (stderrReader ls chunks e).1.err = some e ∧
    (stderrReader ls chunks IOErr.eof).1.err = some IOErr.eof := by
  constructor
  · rw [stderrReader_eq]
  · rw [stderrReader_eq]

end Lspc
